import Mathlib

/-!
Shallow embedding of `backend/pipeline/main.py` of the study-material
pipeline (FastAPI + Firebase Storage + Supabase + Firestore).

Relational tables (Supabase) are embedded as Lean lists in insertion
order; the Firestore `processing_status` collection is a partial map
from document id to document; Firebase Storage is the list of blob
paths written.  Wall-clock time is a `Nat` number of seconds.
HTTP failures (`HTTPException`) are the error side of `Except`.
-/

/-- Row of the Supabase `files` table (primary submission table).
The source inserts `file_id, firebase_uid, file_name, file_type,
storage_path`; `upload_time` is filled by the database at insert time,
so the embedding records the insertion instant there. -/
structure FileRow where
  file_id : String
  firebase_uid : String
  file_name : String
  file_type : String
  storage_path : String
  upload_time : Nat
deriving Repr, DecidableEq

/-- Row of the Supabase `documents_metadata` table (secondary metadata
table used as the foreign-key target of `summaries`). -/
structure DocMetaRow where
  id : String
  firebase_uid : String
deriving Repr, DecidableEq

/-- Row of the Supabase `summaries` table. -/
structure SummaryRow where
  id : String
  document_id : String
  summary_text : String
  version : Nat
  created_at : String
deriving Repr, DecidableEq

/-- Row of the Supabase `users_profile` table.  `email` and
`display_name` are nullable columns, embedded as `Option String`
(`none` = SQL NULL, `some ""` = empty string — the two are distinct,
exactly as in Python/SQL). -/
structure ProfileRow where
  firebase_uid : String
  email : Option String
  display_name : Option String
deriving Repr, DecidableEq

/-- Firestore `processing_status` document.  Firestore documents are
schemaless, so the `status` / `progress` / `message` fields may be
absent (`none`); the reader `get_status` defaults them.  `expire_at`
is the TTL instant written by `update_processing_status`. -/
structure StatusDoc where
  firebase_uid : String
  file_id : String
  status : Option String
  progress : Option Nat
  message : Option String
  expire_at : Nat
deriving Repr, DecidableEq

/-- The Firestore `processing_status` collection: id → document. -/
def FsStore : Type := String → Option StatusDoc

/-- The Supabase database state. -/
structure DB where
  files : List FileRow
  documents_metadata : List DocMetaRow
  summaries : List SummaryRow
  users_profile : List ProfileRow
deriving Repr, DecidableEq

/-- Whole backing-store state: Supabase tables, Firebase Storage blob
paths, Firestore status collection. -/
structure SysState where
  db : DB
  storage : List String
  fs : FsStore

/-- Embedding of FastAPI `HTTPException(status_code, detail)`. -/
structure HTTPError where
  status_code : Nat
  detail : String
deriving Repr, DecidableEq

/-- Response model `FileUploadResponse` of the source. -/
structure FileUploadResponse where
  file_id : String
  file_name : String
  file_type : String
  storage_path : String
  status : String
deriving Repr, DecidableEq

/-- Response model `ProcessingStatus` of the source. -/
structure ProcessingStatusResp where
  file_id : String
  status : String
  progress : Nat
  message : Option String
deriving Repr, DecidableEq

/-- Response model `SummaryResponse` of the source. -/
structure SummaryResponse where
  id : String
  document_id : String
  summary_text : String
  version : Nat
  created_at : String
deriving Repr, DecidableEq

/-- Python truthiness of an optional string: `None` and `""` are
falsy, everything else truthy (used by `ensure_user_profile`, which
tests `if email and not stored_email`). -/
def pyTruthy : Option String → Bool
  | none => false
  | some s => !(s == "")

/-- Embedding of `ensure_user_profile(firebase_uid, email)`:
select the profile rows with this uid; if none, insert a fresh profile
with the supplied email, NULL display name and empty preferences;
otherwise update the email on those rows exactly when the supplied
email is truthy and the stored email of the first row is falsy. -/
def ensure_user_profile (db : DB) (firebase_uid : String) (email : Option String) : DB :=
  match db.users_profile.filter (fun p => p.firebase_uid == firebase_uid) with
  | [] =>
      { db with users_profile :=
          db.users_profile ++ [{ firebase_uid := firebase_uid, email := email, display_name := none }] }
  | p :: _ =>
      if pyTruthy email && !(pyTruthy p.email) then
        { db with users_profile :=
            db.users_profile.map (fun q =>
              if q.firebase_uid == firebase_uid then { q with email := email } else q) }
      else
        db

/-- Seconds in the 24-hour TTL window (`timedelta(hours=24)`). -/
def hours24 : Nat := 24 * 60 * 60

/-- Embedding of `update_processing_status`: `set` on the Firestore
document `processing_status/{file_id}` — a full overwrite writing
`firebase_uid`, `file_id`, `status`, `progress`, `message` and
`expire_at = utcnow() + 24h`, where `now` is the write instant. -/
def update_processing_status (fs : FsStore) (now : Nat) (firebase_uid file_id : String)
    (status : String) (progress : Nat) (message : Option String) : FsStore :=
  fun k =>
    if k = file_id then
      some { firebase_uid := firebase_uid, file_id := file_id, status := some status,
             progress := some progress, message := message, expire_at := now + hours24 }
    else fs k

/-- Firestore read with the store's per-document TTL contract (spec
§4.3/§6: an ephemeral document store with per-document expiry): a
document whose `expire_at` has passed is garbage-collected, i.e.
reads as absent. -/
def fsGet (fs : FsStore) (now : Nat) (k : String) : Option StatusDoc :=
  match fs k with
  | none => none
  | some d => if now < d.expire_at then some d else none

/-- Embedding of `GET /api/status/{file_id}` (`get_status`): 404 when
the document is absent (never written, or past its TTL), 403 when the
document's owner differs from the caller, otherwise the document with
`status` defaulting to `"unknown"` and `progress` defaulting to 0. -/
def get_status (fs : FsStore) (now : Nat) (file_id : String) (firebase_uid : String) :
    Except HTTPError ProcessingStatusResp :=
  match fsGet fs now file_id with
  | none => .error { status_code := 404, detail := "Status not found" }
  | some data =>
      if data.firebase_uid ≠ firebase_uid then
        .error { status_code := 403, detail := "Access denied" }
      else
        .ok { file_id := file_id, status := data.status.getD "unknown",
              progress := data.progress.getD 0, message := data.message }

/-- Embedding of the Supabase query
`summaries.select.eq("document_id", id).order("version", desc).limit(1)`
applied to an already-filtered list: the first row of the
version-descending ordering, i.e. a row of maximal `version`. -/
def maxVersionRow : List SummaryRow → Option SummaryRow
  | [] => none
  | r :: rs =>
      match maxVersionRow rs with
      | none => some r
      | some m => if m.version ≤ r.version then some r else some m

/-- Embedding of `GET /api/summary/{file_id}` (`get_summary`): look up
the `files` rows with this id (404 if none), check the first row's
owner against the caller (403 on mismatch), then return the
maximal-version summary row (404 if none exists). -/
def get_summary (db : DB) (file_id : String) (firebase_uid : String) :
    Except HTTPError SummaryResponse :=
  match db.files.filter (fun f => f.file_id == file_id) with
  | [] => .error { status_code := 404, detail := "File not found" }
  | f :: _ =>
      if f.firebase_uid ≠ firebase_uid then
        .error { status_code := 403, detail := "Access denied" }
      else
        match maxVersionRow (db.summaries.filter (fun s => s.document_id == file_id)) with
        | none => .error { status_code := 404, detail := "Summary not found" }
        | some s =>
            .ok { id := s.id, document_id := s.document_id, summary_text := s.summary_text,
                  version := s.version, created_at := s.created_at }

/-- The `SUPPORTED_TYPES` MIME-type whitelist of the source, mapping
content type to extractor kind. -/
def SUPPORTED_TYPES : List (String × String) :=
  [("application/pdf", "pdf"),
   ("application/vnd.openxmlformats-officedocument.wordprocessingml.document", "docx"),
   ("application/vnd.openxmlformats-officedocument.presentationml.presentation", "pptx"),
   ("image/png", "image"),
   ("image/jpeg", "image"),
   ("image/webp", "image"),
   ("audio/mpeg", "audio"),
   ("audio/wav", "audio"),
   ("audio/webm", "audio"),
   ("video/mp4", "video"),
   ("video/webm", "video")]

/-- Whitelist lookup: `SUPPORTED_TYPES[content_type]`, `none` when the
content type is not a key (the `content_type not in SUPPORTED_TYPES`
test of the source). -/
def lookupType (content_type : String) : Option String :=
  (SUPPORTED_TYPES.find? (fun p => p.1 == content_type)).map (fun p => p.2)

/-- Characters after the last occurrence of `c` (the whole list when
`c` does not occur).  Used to model Python `s.split(".")[-1]` and to
invert storage paths. -/
def lastSegAfter (c : Char) (l : List Char) : List Char :=
  (l.reverse.takeWhile (fun x => x ≠ c)).reverse

/-- Everything strictly before the last occurrence of `c`. -/
def dropLastSeg (c : Char) (l : List Char) : List Char :=
  ((l.reverse.dropWhile (fun x => x ≠ c)).drop 1).reverse

/-- Embedding of
`file.filename.split(".")[-1] if "." in file.filename else file_type`. -/
def fileExt (filename : String) (file_type : String) : String :=
  if '.' ∈ filename.data then String.mk (lastSegAfter '.' filename.data) else file_type

/-- Storage path built by `upload_file`:
`users/{firebase_uid}/uploads/{file_id}.{file_ext}`. -/
def storagePathFor (firebase_uid file_id file_ext : String) : String :=
  "users/" ++ firebase_uid ++ "/uploads/" ++ file_id ++ "." ++ file_ext

/-- The uploaded multipart file as the handler sees it. -/
structure UploadedFile where
  filename : String
  content_type : String
deriving Repr, DecidableEq

/-- Embedding of `POST /api/upload` (`upload_file`).  Request-scoped
nondeterminism is passed in: `now` (clock), `file_id` (the
`uuid.uuid4()` draw), and the outcomes of the two fallible external
writes inside the `try` block (`blobResult`: Firebase Storage upload;
`dbResult`: the Supabase inserts).  Steps as in the source:
profile upsert; MIME whitelist check (400 on miss, before any further
write); status `uploading(10)`; blob write; `files` +
`documents_metadata` inserts; status `uploaded(25)`; response.  An
exception inside the `try` writes status `error(0, str(e))` and
re-raises as a 500. -/
def upload_file (st : SysState) (now : Nat) (file : UploadedFile)
    (firebase_uid : String) (user_email : Option String) (file_id : String)
    (blobResult dbResult : Except String Unit) :
    Except HTTPError FileUploadResponse × SysState :=
  let st1 : SysState := { st with db := ensure_user_profile st.db firebase_uid user_email }
  match lookupType file.content_type with
  | none =>
      (.error { status_code := 400, detail := "Unsupported file type: " ++ file.content_type }, st1)
  | some file_type =>
      let ext := fileExt file.filename file_type
      let storage_path := storagePathFor firebase_uid file_id ext
      let st2 : SysState :=
        { st1 with fs := update_processing_status st1.fs now firebase_uid file_id
                          "uploading" 10 (some "Uploading file...") }
      match blobResult with
      | .error e =>
          (.error { status_code := 500, detail := e },
           { st2 with fs := update_processing_status st2.fs now firebase_uid file_id
                             "error" 0 (some e) })
      | .ok _ =>
          let st3 : SysState := { st2 with storage := st2.storage ++ [storage_path] }
          match dbResult with
          | .error e =>
              (.error { status_code := 500, detail := e },
               { st3 with fs := update_processing_status st3.fs now firebase_uid file_id
                                 "error" 0 (some e) })
          | .ok _ =>
              let newFile : FileRow :=
                { file_id := file_id, firebase_uid := firebase_uid,
                  file_name := file.filename, file_type := file_type,
                  storage_path := storage_path, upload_time := now }
              let st4 : SysState :=
                { st3 with db :=
                    { st3.db with
                        files := st3.db.files ++ [newFile],
                        documents_metadata := st3.db.documents_metadata ++
                          [{ id := file_id, firebase_uid := firebase_uid }] } }
              let st5 : SysState :=
                { st4 with fs := update_processing_status st4.fs now firebase_uid file_id
                                  "uploaded" 25 (some "File uploaded successfully") }
              (.ok { file_id := file_id, file_name := file.filename, file_type := file_type,
                     storage_path := storage_path, status := "processing" }, st5)

/-- Python `title or fallback`: the fallback is used when `title` is
`None` or the empty string (both falsy). -/
def pyOr (title : Option String) (fallback : String) : String :=
  match title with
  | none => fallback
  | some s => if s == "" then fallback else s

/-- Embedding of `POST /api/upload/url` (`upload_url`): profile
upsert; insert the `files` row (URL stored as `storage_path`,
`file_name = title or url[:100]`) and the `documents_metadata` row;
status `extracting(30)`; respond. -/
def upload_url (st : SysState) (now : Nat) (url : String) (title : Option String)
    (firebase_uid : String) (user_email : Option String) (file_id : String) :
    Except HTTPError FileUploadResponse × SysState :=
  let st1 : SysState := { st with db := ensure_user_profile st.db firebase_uid user_email }
  let file_name := pyOr title (url.take 100)
  let newFile : FileRow :=
    { file_id := file_id, firebase_uid := firebase_uid, file_name := file_name,
      file_type := "url", storage_path := url, upload_time := now }
  let st2 : SysState :=
    { st1 with db :=
        { st1.db with
            files := st1.db.files ++ [newFile],
            documents_metadata := st1.db.documents_metadata ++
              [{ id := file_id, firebase_uid := firebase_uid }] } }
  let st3 : SysState :=
    { st2 with fs := update_processing_status st2.fs now firebase_uid file_id
                      "extracting" 30 (some "Extracting content from URL...") }
  (.ok { file_id := file_id, file_name := file_name, file_type := "url",
         storage_path := url, status := "processing" }, st3)

/-- Title derived by `upload_text`:
`request.title or "Text Note: " + text[:50].strip().replace('\n', ' ') + "..."`. -/
def textTitle (text : String) (title : Option String) : String :=
  pyOr title
    ("Text Note: " ++ String.map (fun c => if c = '\n' then ' ' else c) (text.take 50).trim ++ "...")

/-- Embedding of `POST /api/upload/text` (`upload_text`): profile
upsert; insert the `files` row (`file_type = "url"` — the tag is
reused —, virtual path `text://{file_id}`) and the
`documents_metadata` row; status `summarizing(50)`; respond. -/
def upload_text (st : SysState) (now : Nat) (text : String) (title : Option String)
    (firebase_uid : String) (user_email : Option String) (file_id : String) :
    Except HTTPError FileUploadResponse × SysState :=
  let st1 : SysState := { st with db := ensure_user_profile st.db firebase_uid user_email }
  let file_name := textTitle text title
  let newFile : FileRow :=
    { file_id := file_id, firebase_uid := firebase_uid, file_name := file_name,
      file_type := "url", storage_path := "text://" ++ file_id, upload_time := now }
  let st2 : SysState :=
    { st1 with db :=
        { st1.db with
            files := st1.db.files ++ [newFile],
            documents_metadata := st1.db.documents_metadata ++
              [{ id := file_id, firebase_uid := firebase_uid }] } }
  let st3 : SysState :=
    { st2 with fs := update_processing_status st2.fs now firebase_uid file_id
                      "summarizing" 50 (some "Generating summary...") }
  (.ok { file_id := file_id, file_name := file_name, file_type := "url",
         storage_path := "text://" ++ file_id, status := "processing" }, st3)

/-- Insert a row into a list that is already ordered by `upload_time`
descending, keeping the order (one step of the embedding of the
Supabase `order("upload_time", desc=True)` clause). -/
def insertByTimeDesc (f : FileRow) : List FileRow → List FileRow
  | [] => [f]
  | g :: gs =>
      if f.upload_time ≤ g.upload_time then g :: insertByTimeDesc f gs
      else f :: g :: gs

/-- Sort a list of `files` rows by `upload_time` descending
(the `order("upload_time", desc=True)` clause of `get_materials`). -/
def sortByTimeDesc : List FileRow → List FileRow
  | [] => []
  | f :: fs => insertByTimeDesc f (sortByTimeDesc fs)

/-- One entry of the `GET /api/materials` response. -/
structure MaterialEntry where
  file_id : String
  file_name : String
  file_type : String
  storage_path : String
  upload_time : Nat
  has_summary : Bool
  latest_summary : Option String
deriving Repr, DecidableEq

/-- Embedding of `GET /api/materials` (`get_materials`): all `files`
rows of the caller, ordered by `upload_time` descending; each joined
with its maximal-version summary row (`order("version", desc).limit(1)`);
`has_summary` is whether that one-row result is non-empty. -/
def get_materials (db : DB) (firebase_uid : String) : List MaterialEntry :=
  (sortByTimeDesc (db.files.filter (fun f => f.firebase_uid == firebase_uid))).map
    (fun f =>
      let s := maxVersionRow (db.summaries.filter (fun r => r.document_id == f.file_id))
      { file_id := f.file_id, file_name := f.file_name, file_type := f.file_type,
        storage_path := f.storage_path, upload_time := f.upload_time,
        has_summary := s.isSome, latest_summary := s.map (fun r => r.summary_text) })

/-- One write to the Status Tracker: label, progress, message. -/
structure StatusWrite where
  status : String
  progress : Nat
  message : Option String
deriving Repr, DecidableEq

/-- Projection of a status-write trace to its (label, progress) pairs. -/
def stagePairs (t : List StatusWrite) : List (String × Nat) :=
  t.map (fun w => (w.status, w.progress))

/-- Status writes made by `upload_file` on the intake path of an
accepted binary-file submission (source lines 284 and 317). -/
def fileIntakeTrace : List StatusWrite :=
  [{ status := "uploading", progress := 10, message := some "Uploading file..." },
   { status := "uploaded", progress := 25, message := some "File uploaded successfully" }]

/-- Status write made by `upload_url` on the intake path (line 394). -/
def urlIntakeTrace : List StatusWrite :=
  [{ status := "extracting", progress := 30, message := some "Extracting content from URL..." }]

/-- Status write made by `upload_text` on the intake path (line 469). -/
def textIntakeTrace : List StatusWrite :=
  [{ status := "summarizing", progress := 50, message := some "Generating summary..." }]

/-- Modelled from the spec: `extractors.process_file` (imported by
`process_file_background`) is not under `src/`.  Spec §4.4: the
binary-file background task advances status to `extracting(40)`,
invokes the extractor, advances to `summarizing(70)`, invokes the
summarizer, persists the Summary row, and advances to `complete(100)`;
an unrecoverable failure at any stage writes `error(0)` with the
failure description and stops. -/
def process_file_trace (extractR summarizeR persistR : Except String Unit) : List StatusWrite :=
  { status := "extracting", progress := 40, message := none } ::
    match extractR with
    | .error e => [{ status := "error", progress := 0, message := some e }]
    | .ok _ =>
        { status := "summarizing", progress := 70, message := none } ::
          match summarizeR with
          | .error e => [{ status := "error", progress := 0, message := some e }]
          | .ok _ =>
              match persistR with
              | .error e => [{ status := "error", progress := 0, message := some e }]
              | .ok _ => [{ status := "complete", progress := 100, message := none }]

/-- Modelled from the spec: `extractors.process_url` is not under
`src/`.  Spec §4.4: the URL background task (after intake already
wrote `extracting(30)`) fetches text from the URL, advances to
`summarizing(70)`, summarizes, persists, and advances to
`complete(100)`; any failure writes `error(0)` with the failure
description and stops. -/
def process_url_trace (fetchR summarizeR persistR : Except String Unit) : List StatusWrite :=
  match fetchR with
  | .error e => [{ status := "error", progress := 0, message := some e }]
  | .ok _ =>
      { status := "summarizing", progress := 70, message := none } ::
        match summarizeR with
        | .error e => [{ status := "error", progress := 0, message := some e }]
        | .ok _ =>
            match persistR with
            | .error e => [{ status := "error", progress := 0, message := some e }]
            | .ok _ => [{ status := "complete", progress := 100, message := none }]

/-- Modelled from the spec: `extractors.process_text` is not under
`src/`.  Spec §4.4: the text background task (after intake already
wrote `summarizing(50)`) summarizes the raw text, persists, and
advances to `complete(100)`; any failure writes `error(0)` with the
failure description and stops. -/
def process_text_trace (summarizeR persistR : Except String Unit) : List StatusWrite :=
  match summarizeR with
  | .error e => [{ status := "error", progress := 0, message := some e }]
  | .ok _ =>
      match persistR with
      | .error e => [{ status := "error", progress := 0, message := some e }]
      | .ok _ => [{ status := "complete", progress := 100, message := none }]

/-- Complete status-write trace of an accepted binary-file submission:
intake writes followed by the background task's writes. -/
def binaryTrace (extractR summarizeR persistR : Except String Unit) : List StatusWrite :=
  fileIntakeTrace ++ process_file_trace extractR summarizeR persistR

/-- Complete status-write trace of an accepted URL submission. -/
def urlTrace (fetchR summarizeR persistR : Except String Unit) : List StatusWrite :=
  urlIntakeTrace ++ process_url_trace fetchR summarizeR persistR

/-- Complete status-write trace of an accepted text submission. -/
def textTrace (summarizeR persistR : Except String Unit) : List StatusWrite :=
  textIntakeTrace ++ process_text_trace summarizeR persistR

/-- The ordered (label, progress) sequence claimed for binary-file
submissions. -/
def binarySeq : List (String × Nat) :=
  [("uploading", 10), ("uploaded", 25), ("extracting", 40), ("summarizing", 70), ("complete", 100)]

/-- The ordered (label, progress) sequence claimed for URL submissions. -/
def urlSeq : List (String × Nat) :=
  [("extracting", 30), ("summarizing", 70), ("complete", 100)]

/-- The ordered (label, progress) sequence claimed for text submissions. -/
def textSeq : List (String × Nat) :=
  [("summarizing", 50), ("complete", 100)]

/-- A trace follows a claimed stage sequence when it either is exactly
that sequence, or is a proper initial part of it followed by a single
terminal `error(0)` write carrying some message. -/
def followsSeq (seq : List (String × Nat)) (t : List StatusWrite) : Prop :=
  (stagePairs t = seq ∧ ∀ w ∈ t, w.status ≠ "error") ∨
  (∃ n msg, n < seq.length ∧
    t = (t.take n) ++ [{ status := "error", progress := 0, message := some msg }] ∧
    stagePairs (t.take n) = seq.take n ∧
    ∀ w ∈ t.take n, w.status ≠ "error")

/-- Inverse of `storagePathFor` on the `file_id` component: the
segment between the last `/` and the last `.` of the path. -/
def extractFileId (s : String) : String :=
  String.mk (lastSegAfter '/' (dropLastSeg '.' s.data))

/-- Cross-table invariant of the Submission Registry: every `files`
row has a `documents_metadata` companion with the same identifier and
owner, and conversely. -/
def tablesAligned (db : DB) : Prop :=
  (∀ f ∈ db.files, ∃ d ∈ db.documents_metadata,
      d.id = f.file_id ∧ d.firebase_uid = f.firebase_uid) ∧
  (∀ d ∈ db.documents_metadata, ∃ f ∈ db.files,
      f.file_id = d.id ∧ f.firebase_uid = d.firebase_uid)

/-- Concrete `files` row used by witnesses. -/
def fileRowA : FileRow :=
  { file_id := "d1", firebase_uid := "alice", file_name := "notes.pdf",
    file_type := "pdf", storage_path := "users/alice/uploads/d1.pdf", upload_time := 100 }

/-- Concrete version-1 summary row used by witnesses (written last). -/
def summaryRowV1 : SummaryRow :=
  { id := "s1", document_id := "d1", summary_text := "first summary", version := 1,
    created_at := "t1" }

/-- Concrete version-2 summary row used by witnesses (written first). -/
def summaryRowV2 : SummaryRow :=
  { id := "s2", document_id := "d1", summary_text := "second summary", version := 2,
    created_at := "t2" }

/-- Concrete database used by witnesses: one submission of alice with
two summaries stored out of version order (the maximal version is not
the most recently written row). -/
def dbSample : DB :=
  { files := [fileRowA],
    documents_metadata := [{ id := "d1", firebase_uid := "alice" }],
    summaries := [summaryRowV2, summaryRowV1],
    users_profile := [] }

/-- Database holding one profile whose stored email is the empty
string (a non-null value that is falsy in Python). -/
def dbEmptyEmail : DB :=
  { files := [], documents_metadata := [], summaries := [],
    users_profile := [{ firebase_uid := "u", email := some "", display_name := none }] }

/-- System state with every store empty. -/
def emptySys : SysState :=
  { db := { files := [], documents_metadata := [], summaries := [], users_profile := [] },
    storage := [], fs := fun _ => none }

/-- Convenience builder for a `files` row (used in statements). -/
def mkFileRow (fid uid fname ftype spath : String) (t : Nat) : FileRow :=
  { file_id := fid, firebase_uid := uid, file_name := fname, file_type := ftype,
    storage_path := spath, upload_time := t }

/-- Convenience builder for a `documents_metadata` row. -/
def mkDocMeta (fid uid : String) : DocMetaRow :=
  { id := fid, firebase_uid := uid }

theorem ensure_user_profile_files (db : DB) (u : String) (em : Option String) :
    (ensure_user_profile db u em).files = db.files := by
  unfold ensure_user_profile
  split
  · rfl
  · split <;> rfl

theorem ensure_user_profile_documents_metadata (db : DB) (u : String) (em : Option String) :
    (ensure_user_profile db u em).documents_metadata = db.documents_metadata := by
  unfold ensure_user_profile
  split
  · rfl
  · split <;> rfl

theorem ensure_user_profile_summaries (db : DB) (u : String) (em : Option String) :
    (ensure_user_profile db u em).summaries = db.summaries := by
  unfold ensure_user_profile
  split
  · rfl
  · split <;> rfl

theorem maxVersionRow_eq_none (l : List SummaryRow) (h : maxVersionRow l = none) : l = [] := by
  cases l with
  | nil => rfl
  | cons r rs =>
    exfalso
    rcases hm : maxVersionRow rs with _ | m
    · simp only [maxVersionRow, hm] at h
      cases h
    · simp only [maxVersionRow, hm] at h
      split at h <;> cases h

theorem maxVersionRow_isSome_iff (l : List SummaryRow) :
    (maxVersionRow l).isSome = true ↔ l ≠ [] := by
  cases l with
  | nil => simp [maxVersionRow]
  | cons r rs =>
    rcases hm : maxVersionRow rs with _ | m
    · simp [maxVersionRow, hm]
    · simp only [maxVersionRow, hm]
      split <;> simp

theorem maxVersionRow_mem : ∀ (l : List SummaryRow) (r : SummaryRow),
    maxVersionRow l = some r → r ∈ l := by
  intro l
  induction l with
  | nil => intro r h; simp [maxVersionRow] at h
  | cons x xs ih =>
    intro r h
    rcases hm : maxVersionRow xs with _ | m
    · simp only [maxVersionRow, hm] at h
      injection h with h
      exact h ▸ List.mem_cons_self x xs
    · simp only [maxVersionRow, hm] at h
      split at h
      · injection h with h
        exact h ▸ List.mem_cons_self x xs
      · injection h with h
        exact List.mem_cons_of_mem x (h ▸ ih m hm)

theorem maxVersionRow_max : ∀ (l : List SummaryRow) (r : SummaryRow),
    maxVersionRow l = some r → ∀ s ∈ l, s.version ≤ r.version := by
  intro l
  induction l with
  | nil => intro r h; simp [maxVersionRow] at h
  | cons x xs ih =>
    intro r h s hs
    rcases hm : maxVersionRow xs with _ | m
    · simp only [maxVersionRow, hm] at h
      injection h with h
      subst h
      have hxs : xs = [] := maxVersionRow_eq_none xs hm
      subst hxs
      rcases List.mem_singleton.mp hs with rfl
      exact Nat.le_refl _
    · simp only [maxVersionRow, hm] at h
      split at h
      · rename_i hle
        injection h with h
        subst h
        rcases List.mem_cons.mp hs with rfl | hsx
        · exact Nat.le_refl _
        · exact Nat.le_trans (ih m hm s hsx) hle
      · rename_i hgt
        injection h with h
        subst h
        rcases List.mem_cons.mp hs with rfl | hsx
        · omega
        · exact ih m hm s hsx

theorem mem_insertByTimeDesc (f g : FileRow) (l : List FileRow) :
    g ∈ insertByTimeDesc f l ↔ g = f ∨ g ∈ l := by
  induction l with
  | nil => simp [insertByTimeDesc]
  | cons x xs ih =>
    simp only [insertByTimeDesc]
    split
    · simp only [List.mem_cons, ih]
      tauto
    · simp only [List.mem_cons]

theorem mem_sortByTimeDesc (g : FileRow) (l : List FileRow) :
    g ∈ sortByTimeDesc l ↔ g ∈ l := by
  induction l with
  | nil => simp [sortByTimeDesc]
  | cons x xs ih =>
    simp only [sortByTimeDesc, mem_insertByTimeDesc, ih, List.mem_cons]

theorem pairwise_insertByTimeDesc (f : FileRow) (l : List FileRow)
    (h : l.Pairwise (fun a b => b.upload_time ≤ a.upload_time)) :
    (insertByTimeDesc f l).Pairwise (fun a b => b.upload_time ≤ a.upload_time) := by
  induction l with
  | nil => simp [insertByTimeDesc]
  | cons x xs ih =>
    rcases List.pairwise_cons.mp h with ⟨hx, hxs⟩
    simp only [insertByTimeDesc]
    split
    · rename_i hle
      refine List.pairwise_cons.mpr ⟨?_, ih hxs⟩
      intro b hb
      rcases (mem_insertByTimeDesc f b xs).mp hb with rfl | hbx
      · exact hle
      · exact hx b hbx
    · rename_i hgt
      refine List.pairwise_cons.mpr ⟨?_, h⟩
      intro b hb
      rcases List.mem_cons.mp hb with rfl | hbxs
      · omega
      · have := hx b hbxs
        omega

theorem pairwise_sortByTimeDesc (l : List FileRow) :
    (sortByTimeDesc l).Pairwise (fun a b => b.upload_time ≤ a.upload_time) := by
  induction l with
  | nil => simp [sortByTimeDesc]
  | cons x xs ih => exact pairwise_insertByTimeDesc x (sortByTimeDesc xs) ih

theorem takeWhile_append_of_all (p : Char → Bool) (l₁ l₂ : List Char) (c : Char)
    (h₁ : ∀ x ∈ l₁, p x = true) (h₂ : p c = false) :
    (l₁ ++ c :: l₂).takeWhile p = l₁ := by
  induction l₁ with
  | nil => simp [List.takeWhile_cons, h₂]
  | cons x xs ih =>
    have hx : p x = true := h₁ x (List.mem_cons_self x xs)
    simp [List.takeWhile_cons, hx, ih (fun y hy => h₁ y (List.mem_cons_of_mem x hy))]

theorem dropWhile_append_of_all (p : Char → Bool) (l₁ l₂ : List Char) (c : Char)
    (h₁ : ∀ x ∈ l₁, p x = true) (h₂ : p c = false) :
    (l₁ ++ c :: l₂).dropWhile p = c :: l₂ := by
  induction l₁ with
  | nil => simp [List.dropWhile_cons, h₂]
  | cons x xs ih =>
    have hx : p x = true := h₁ x (List.mem_cons_self x xs)
    simp [List.dropWhile_cons, hx, ih (fun y hy => h₁ y (List.mem_cons_of_mem x hy))]

theorem lastSegAfter_append (c : Char) (A B : List Char) (hB : ∀ x ∈ B, x ≠ c) :
    lastSegAfter c (A ++ c :: B) = B := by
  unfold lastSegAfter
  rw [List.reverse_append, List.reverse_cons, List.append_assoc, List.singleton_append]
  rw [takeWhile_append_of_all _ B.reverse A.reverse c ?_ ?_]
  · exact List.reverse_reverse B
  · intro x hx
    exact decide_eq_true (hB x (List.mem_reverse.mp hx))
  · simp

theorem dropLastSeg_append (c : Char) (A B : List Char) (hB : ∀ x ∈ B, x ≠ c) :
    dropLastSeg c (A ++ c :: B) = A := by
  unfold dropLastSeg
  rw [List.reverse_append, List.reverse_cons, List.append_assoc, List.singleton_append]
  rw [dropWhile_append_of_all _ B.reverse A.reverse c ?_ ?_]
  · simp
  · intro x hx
    exact decide_eq_true (hB x (List.mem_reverse.mp hx))
  · simp

theorem lastSegAfter_not_mem (c : Char) (l : List Char) : c ∉ lastSegAfter c l := by
  intro h
  have h1 : c ∈ l.reverse.takeWhile (fun x => x ≠ c) := List.mem_reverse.mp h
  have h2 := List.mem_takeWhile_imp h1
  simp at h2

theorem storagePathFor_data (u f e : String) :
    (storagePathFor u f e).data =
      (("users/".data ++ u.data ++ "/uploads".data) ++ '/' :: f.data) ++ '.' :: e.data := by
  have h1 : ("/uploads/" : String).data = "/uploads".data ++ ['/'] := rfl
  have h2 : ("." : String).data = ['.'] := rfl
  simp only [storagePathFor, String.data_append, h1, h2, List.append_assoc,
    List.singleton_append, List.cons_append, List.nil_append]

theorem extractFileId_storagePath (u f e : String)
    (hf : ∀ ch ∈ f.data, ch ≠ '.' ∧ ch ≠ '/')
    (he : ∀ ch ∈ e.data, ch ≠ '.') :
    extractFileId (storagePathFor u f e) = f := by
  unfold extractFileId
  rw [storagePathFor_data]
  rw [dropLastSeg_append '.' _ e.data he]
  rw [lastSegAfter_append '/' _ f.data (fun x hx => (hf x hx).2)]

/-- C4: every `update_processing_status` write produces a status
document whose expiry timestamp is the write instant plus 24 hours,
and a `get_status` read at or after that expiry returns 404, exactly
as a read of an identifier that was never written does. -/
theorem status_doc_expiry (fs : FsStore) (now : Nat) (uid fid stL : String)
    (prog : Nat) (msg : Option String) :
    (∃ d, update_processing_status fs now uid fid stL prog msg fid = some d ∧
        d.expire_at = now + hours24) ∧
    (∀ t caller, now + hours24 ≤ t →
      get_status (update_processing_status fs now uid fid stL prog msg) t fid caller =
        .error { status_code := 404, detail := "Status not found" } ∧
      get_status (fun _ => none) t fid caller =
        .error { status_code := 404, detail := "Status not found" }) := by
  constructor
  · refine ⟨{ firebase_uid := uid, file_id := fid, status := some stL, progress := some prog,
              message := msg, expire_at := now + hours24 }, ?_, rfl⟩
    simp [update_processing_status]
  · intro t caller ht
    constructor
    · have hnot : ¬ t < now + hours24 := by omega
      simp [get_status, fsGet, update_processing_status, hnot]
    · rfl

/-- C4 witness: a document written at time 0 expires at `hours24`; a
read at that instant is 404, identical to reading a never-written id. -/
theorem status_doc_expiry_witness :
    (∃ d, update_processing_status (fun _ => none) 0 "u" "f" "complete" 100 none "f" = some d ∧
        d.expire_at = 0 + hours24) ∧
    (get_status (update_processing_status (fun _ => none) 0 "u" "f" "complete" 100 none)
        hours24 "f" "u" = .error { status_code := 404, detail := "Status not found" } ∧
      get_status (fun _ => none) hours24 "f" "u" =
        .error { status_code := 404, detail := "Status not found" }) := by
  have h := status_doc_expiry (fun _ => none) 0 "u" "f" "complete" 100 none
  exact ⟨h.1, h.2 hours24 "u" (by simp)⟩

/-- C10: a status read of a stored document that lacks the `status` or
`progress` fields does not fail — it answers with the `getD` defaults
`"unknown"` and 0 — and every document written by
`update_processing_status` carries both fields, so reading such a
document always returns the written label and progress, never the
defaults. -/
theorem status_read_defaults (fs : FsStore) (now : Nat) (fid caller : String) :
    (∀ d, fs fid = some d → now < d.expire_at → d.firebase_uid = caller →
      get_status fs now fid caller =
        .ok { file_id := fid, status := d.status.getD "unknown",
              progress := d.progress.getD 0, message := d.message }) ∧
    (∀ d, fs fid = some d → now < d.expire_at → d.firebase_uid = caller →
      d.status = none → d.progress = none →
      get_status fs now fid caller =
        .ok { file_id := fid, status := "unknown", progress := 0, message := d.message }) ∧
    (∀ (fs2 : FsStore) (t : Nat) (uid stL : String) (prog : Nat) (msg : Option String),
      update_processing_status fs2 t uid fid stL prog msg fid =
        some { firebase_uid := uid, file_id := fid, status := some stL,
               progress := some prog, message := msg, expire_at := t + hours24 }) := by
  refine ⟨?_, ?_, ?_⟩
  · intro d hd hlive howner
    simp [get_status, fsGet, hd, hlive, howner]
  · intro d hd hlive howner hst hpr
    simp [get_status, fsGet, hd, hlive, howner, hst, hpr]
  · intro fs2 t uid stL prog msg
    simp [update_processing_status]

/-- C10 witness: a handwritten document with both fields missing reads
as `unknown`/0, and a system write of `("summarizing", 70)` reads back
exactly those values. -/
theorem status_read_defaults_witness :
    get_status
        (fun k => if k = "f" then
            some { firebase_uid := "u", file_id := "f", status := none, progress := none,
                   message := none, expire_at := 5 }
          else none) 0 "f" "u" =
      .ok { file_id := "f", status := "unknown", progress := 0, message := none } := by
  have h := (status_read_defaults
    (fun k => if k = "f" then
        some { firebase_uid := "u", file_id := "f", status := none, progress := none,
               message := none, expire_at := 5 }
      else none) 0 "f" "u").2.1
  exact h _ rfl (by decide) rfl rfl rfl

/-- C9: two accepted file uploads that are distinct submissions carry
distinct freshly generated identifiers, and the storage path
`users/{uid}/uploads/{id}.{ext}` is then distinct as well, whatever
the owners, filenames and extensions are (in particular for two
different users with colliding filenames).  UUID identifiers contain
neither `.` nor `/`, and the extension `filename.split(".")[-1]`
contains no `.`; these well-formedness facts are the hypotheses. -/
theorem storage_paths_no_collision (u₁ u₂ f₁ f₂ e₁ e₂ : String)
    (hne : f₁ ≠ f₂)
    (hf₁ : ∀ ch ∈ f₁.data, ch ≠ '.' ∧ ch ≠ '/')
    (hf₂ : ∀ ch ∈ f₂.data, ch ≠ '.' ∧ ch ≠ '/')
    (he₁ : ∀ ch ∈ e₁.data, ch ≠ '.')
    (he₂ : ∀ ch ∈ e₂.data, ch ≠ '.') :
    storagePathFor u₁ f₁ e₁ ≠ storagePathFor u₂ f₂ e₂ := by
  intro h
  apply hne
  have h2 := congrArg extractFileId h
  rwa [extractFileId_storagePath u₁ f₁ e₁ hf₁ he₁,
       extractFileId_storagePath u₂ f₂ e₂ hf₂ he₂] at h2

/-- C9 witness: two users with the same filename (hence the same
extension) and distinct generated identifiers get distinct paths. -/
theorem storage_paths_no_collision_witness :
    storagePathFor "alice" "id-111" "pdf" ≠ storagePathFor "bob" "id-222" "pdf" := by
  have h := storage_paths_no_collision "alice" "bob" "id-111" "id-222" "pdf" "pdf"
    (by decide) (by decide) (by decide) (by decide) (by decide)
  exact h

/-- C3 counterexample: the claim says a request with an unlisted MIME
type is rejected with no record of any kind written, but
`ensure_user_profile` runs before the whitelist check: on an empty
store, an upload with content type `text/plain` is rejected with 400
while a `users_profile` row for the caller has been inserted. -/
theorem upload_reject_writes_profile :
    (upload_file emptySys 0 { filename := "a.txt", content_type := "text/plain" }
        "u" none "id0" (.ok ()) (.ok ())).1 =
      .error { status_code := 400, detail := "Unsupported file type: text/plain" } ∧
    (upload_file emptySys 0 { filename := "a.txt", content_type := "text/plain" }
        "u" none "id0" (.ok ()) (.ok ())).2.db.users_profile =
      [{ firebase_uid := "u", email := none, display_name := none }] ∧
    emptySys.db.users_profile = [] := by
  refine ⟨rfl, rfl, rfl⟩

/-- C3 (amended): a file upload whose MIME content type is not in the
whitelist is rejected with 400 before any content, submission,
metadata, summary or status write — the blob store, the `files`,
`documents_metadata` and `summaries` tables and the status collection
are all unchanged; the only store write that can precede the rejection
is the idempotent user-profile upsert done on every authenticated
request. -/
theorem unsupported_type_rejected (st : SysState) (now : Nat) (file : UploadedFile)
    (uid : String) (em : Option String) (fid : String) (b d : Except String Unit)
    (h : lookupType file.content_type = none) :
    (upload_file st now file uid em fid b d).1 =
      .error { status_code := 400, detail := "Unsupported file type: " ++ file.content_type } ∧
    (upload_file st now file uid em fid b d).2.storage = st.storage ∧
    (upload_file st now file uid em fid b d).2.db.files = st.db.files ∧
    (upload_file st now file uid em fid b d).2.db.documents_metadata =
      st.db.documents_metadata ∧
    (upload_file st now file uid em fid b d).2.db.summaries = st.db.summaries ∧
    (upload_file st now file uid em fid b d).2.fs = st.fs := by
  refine ⟨?_, ?_, ?_, ?_, ?_, ?_⟩ <;>
    simp [upload_file, h, ensure_user_profile_files,
      ensure_user_profile_documents_metadata, ensure_user_profile_summaries]

/-- C3 witness: the amended statement at the concrete rejected
request of the counterexample. -/
theorem unsupported_type_rejected_witness :
    (upload_file emptySys 0 { filename := "a.txt", content_type := "text/plain" }
        "u" none "id0" (.ok ()) (.ok ())).1 =
      .error { status_code := 400, detail := "Unsupported file type: text/plain" } ∧
    (upload_file emptySys 0 { filename := "a.txt", content_type := "text/plain" }
        "u" none "id0" (.ok ()) (.ok ())).2.storage = emptySys.storage ∧
    (upload_file emptySys 0 { filename := "a.txt", content_type := "text/plain" }
        "u" none "id0" (.ok ()) (.ok ())).2.db.files = emptySys.db.files ∧
    (upload_file emptySys 0 { filename := "a.txt", content_type := "text/plain" }
        "u" none "id0" (.ok ()) (.ok ())).2.db.documents_metadata =
      emptySys.db.documents_metadata ∧
    (upload_file emptySys 0 { filename := "a.txt", content_type := "text/plain" }
        "u" none "id0" (.ok ()) (.ok ())).2.db.summaries = emptySys.db.summaries ∧
    (upload_file emptySys 0 { filename := "a.txt", content_type := "text/plain" }
        "u" none "id0" (.ok ()) (.ok ())).2.fs = emptySys.fs := by
  have hl : lookupType "text/plain" = none := by decide
  exact unsupported_type_rejected emptySys 0
    { filename := "a.txt", content_type := "text/plain" } "u" none "id0" (.ok ()) (.ok ()) hl

/-- C2: `get_summary` fails 404 (file not found) when no `files` row
carries the requested id; otherwise it fails 403 (access denied) when
the record's owner differs from the caller — whatever the `summaries`
table holds, so the ownership check precedes the summary lookup;
otherwise it fails 404 (summary not found) when the submission has no
summary row; otherwise it returns the latest (maximal-version)
summary. -/
theorem get_summary_check_order (db : DB) (fid uid : String) :
    (db.files.filter (fun f => f.file_id == fid) = [] →
      get_summary db fid uid = .error { status_code := 404, detail := "File not found" }) ∧
    (∀ f rest, db.files.filter (fun g => g.file_id == fid) = f :: rest →
      f.firebase_uid ≠ uid →
      get_summary db fid uid = .error { status_code := 403, detail := "Access denied" }) ∧
    (∀ f rest, db.files.filter (fun g => g.file_id == fid) = f :: rest →
      f.firebase_uid = uid →
      db.summaries.filter (fun s => s.document_id == fid) = [] →
      get_summary db fid uid = .error { status_code := 404, detail := "Summary not found" }) ∧
    (∀ f rest r, db.files.filter (fun g => g.file_id == fid) = f :: rest →
      f.firebase_uid = uid →
      maxVersionRow (db.summaries.filter (fun s => s.document_id == fid)) = some r →
      get_summary db fid uid =
        .ok { id := r.id, document_id := r.document_id, summary_text := r.summary_text,
              version := r.version, created_at := r.created_at }) := by
  refine ⟨?_, ?_, ?_, ?_⟩
  · intro h
    simp only [get_summary, h]
  · intro f rest h hne
    simp only [get_summary, h]
    simp [hne]
  · intro f rest h howner hsum
    simp only [get_summary, h, hsum]
    simp [howner, maxVersionRow]
  · intro f rest r h howner hmax
    simp only [get_summary, h, hmax]
    simp [howner]

/-- C2 witness: a non-owner caller gets 403 on a submission that does
have summaries (the access check fires before the summary lookup). -/
theorem get_summary_check_order_witness :
    get_summary dbSample "d1" "mallory" =
      .error { status_code := 403, detail := "Access denied" } := by
  have h := (get_summary_check_order dbSample "d1" "mallory").2.1
  exact h fileRowA [] (by decide) (by decide)

/-- C5: the summary returned by the retrieval operations is the
maximal-version row for the submission, independent of write order: a
successful `get_summary` response has a backing row whose version
bounds every summary row of that submission, and every
`latest_summary` text in `get_materials` comes from such a
maximal-version row. -/
theorem latest_summary_is_max_version (db : DB) (fid uid : String) :
    (∀ resp, get_summary db fid uid = .ok resp →
      ∃ r, r ∈ db.summaries ∧ r.document_id = fid ∧ r.version = resp.version ∧
        r.summary_text = resp.summary_text ∧
        ∀ s ∈ db.summaries, s.document_id = fid → s.version ≤ resp.version) ∧
    (∀ m, m ∈ get_materials db uid → ∀ t, m.latest_summary = some t →
      ∃ r, r ∈ db.summaries ∧ r.document_id = m.file_id ∧ r.summary_text = t ∧
        ∀ s ∈ db.summaries, s.document_id = m.file_id → s.version ≤ r.version) := by
  constructor
  · intro resp h
    unfold get_summary at h
    rcases hfil : db.files.filter (fun f => f.file_id == fid) with _ | ⟨f, rest⟩
    · rw [hfil] at h
      cases h
    · rw [hfil] at h
      dsimp only at h
      split at h
      · cases h
      · rcases hmax : maxVersionRow (db.summaries.filter (fun s => s.document_id == fid))
          with _ | r
        · rw [hmax] at h
          cases h
        · rw [hmax] at h
          injection h with h
          subst h
          have hrmem := maxVersionRow_mem _ r hmax
          have hrmax := maxVersionRow_max _ r hmax
          rcases List.mem_filter.mp hrmem with ⟨hrs, hrid⟩
          refine ⟨r, hrs, eq_of_beq hrid, rfl, rfl, ?_⟩
          intro s hs hsid
          exact hrmax s (List.mem_filter.mpr ⟨hs, by simp [hsid]⟩)
  · intro m hm t ht
    unfold get_materials at hm
    rcases List.mem_map.mp hm with ⟨f, hf, hentry⟩
    subst hentry
    simp only at ht
    rcases Option.map_eq_some'.mp ht with ⟨r, hmax, hrt⟩
    have hrmem := maxVersionRow_mem _ r hmax
    have hrmax := maxVersionRow_max _ r hmax
    rcases List.mem_filter.mp hrmem with ⟨hrs, hrid⟩
    refine ⟨r, hrs, eq_of_beq hrid, hrt, ?_⟩
    intro s hs hsid
    exact hrmax s (List.mem_filter.mpr ⟨hs, by simp [hsid]⟩)

/-- C5 witness: in `dbSample` the version-2 row precedes the
version-1 row in write order (version 1 was written last), and
`get_summary` still returns version 2. -/
theorem latest_summary_is_max_version_witness :
    ∃ r, r ∈ dbSample.summaries ∧ r.document_id = "d1" ∧ r.version = 2 ∧
      r.summary_text = "second summary" ∧
      ∀ s ∈ dbSample.summaries, s.document_id = "d1" → s.version ≤ 2 := by
  have h := (latest_summary_is_max_version dbSample "d1" "alice").1
  exact h { id := "s2", document_id := "d1", summary_text := "second summary",
            version := 2, created_at := "t2" } rfl

theorem filter_ne_nil_iff {α : Type} (p : α → Bool) (l : List α) :
    l.filter p ≠ [] ↔ ∃ x, x ∈ l ∧ p x = true := by
  constructor
  · intro h
    rcases hx : l.filter p with _ | ⟨x, xs⟩
    · exact absurd hx h
    · have hmem : x ∈ l.filter p := hx ▸ List.mem_cons_self x xs
      rcases List.mem_filter.mp hmem with ⟨h1, h2⟩
      exact ⟨x, h1, h2⟩
  · rintro ⟨x, hx, hpx⟩ hnil
    have hmem : x ∈ l.filter p := List.mem_filter.mpr ⟨hx, hpx⟩
    rw [hnil] at hmem
    cases hmem

/-- C7: `get_materials` returns exactly the caller's submissions — an
entry exists for a `files` row precisely when that row's owner is the
caller, and every entry originates from such a row —, ordered by
upload time descending; each entry's `has_summary` flag is true
exactly when a summary row exists for that submission, and the
attached text, when present, is that of a maximal-version row. -/
theorem get_materials_spec (db : DB) (uid : String) :
    (∀ m, m ∈ get_materials db uid → ∃ f, f ∈ db.files ∧ f.firebase_uid = uid ∧
      m.file_id = f.file_id ∧ m.file_name = f.file_name ∧ m.file_type = f.file_type ∧
      m.storage_path = f.storage_path ∧ m.upload_time = f.upload_time) ∧
    (∀ f, f ∈ db.files → f.firebase_uid = uid →
      ∃ m, m ∈ get_materials db uid ∧ m.file_id = f.file_id) ∧
    (get_materials db uid).Pairwise (fun a b => b.upload_time ≤ a.upload_time) ∧
    (∀ m, m ∈ get_materials db uid →
      ((m.has_summary = true ↔ ∃ s, s ∈ db.summaries ∧ s.document_id = m.file_id) ∧
       (∀ t, m.latest_summary = some t → ∃ r, r ∈ db.summaries ∧
         r.document_id = m.file_id ∧ r.summary_text = t ∧
         ∀ s ∈ db.summaries, s.document_id = m.file_id → s.version ≤ r.version))) := by
  refine ⟨?_, ?_, ?_, ?_⟩
  · intro m hm
    rcases List.mem_map.mp hm with ⟨f, hf, hentry⟩
    have hf2 := (mem_sortByTimeDesc f _).mp hf
    rcases List.mem_filter.mp hf2 with ⟨hfl, hfu⟩
    subst hentry
    exact ⟨f, hfl, eq_of_beq hfu, rfl, rfl, rfl, rfl, rfl⟩
  · intro f hf hfu
    refine ⟨_, List.mem_map.mpr ⟨f, ?_, rfl⟩, rfl⟩
    exact (mem_sortByTimeDesc f _).mpr (List.mem_filter.mpr ⟨hf, by simp [hfu]⟩)
  · unfold get_materials
    rw [List.pairwise_map]
    exact pairwise_sortByTimeDesc _
  · intro m hm
    rcases List.mem_map.mp hm with ⟨f, hf, hentry⟩
    subst hentry
    constructor
    · simp only [Option.isSome_iff_ne_none]
      constructor
      · intro hne
        rcases hmax : maxVersionRow (db.summaries.filter (fun r => r.document_id == f.file_id))
          with _ | r
        · simp only [Option.ne_none_iff_isSome, hmax] at hne
          cases hne
        · have hrmem := maxVersionRow_mem _ r hmax
          rcases List.mem_filter.mp hrmem with ⟨hrs, hrid⟩
          exact ⟨r, hrs, eq_of_beq hrid⟩
      · rintro ⟨s, hs, hsid⟩ hnone
        have hfe : db.summaries.filter (fun r => r.document_id == f.file_id) = [] :=
          maxVersionRow_eq_none _ hnone
        have : s ∈ db.summaries.filter (fun r => r.document_id == f.file_id) :=
          List.mem_filter.mpr ⟨hs, by simp [hsid]⟩
        rw [hfe] at this
        cases this
    · intro t ht
      simp only at ht
      rcases Option.map_eq_some'.mp ht with ⟨r, hmax, hrt⟩
      have hrmem := maxVersionRow_mem _ r hmax
      have hrmax := maxVersionRow_max _ r hmax
      rcases List.mem_filter.mp hrmem with ⟨hrs, hrid⟩
      refine ⟨r, hrs, eq_of_beq hrid, hrt, ?_⟩
      intro s hs hsid
      exact hrmax s (List.mem_filter.mpr ⟨hs, by simp [hsid]⟩)

/-- C7 witness: the single entry alice sees for `dbSample` — with
`has_summary = true` and the maximal-version text attached —
originates from a `files` row she owns. -/
theorem get_materials_spec_witness :
    ∃ f, f ∈ dbSample.files ∧ f.firebase_uid = "alice" ∧
      ({ file_id := "d1", file_name := "notes.pdf", file_type := "pdf",
         storage_path := "users/alice/uploads/d1.pdf", upload_time := 100,
         has_summary := true, latest_summary := some "second summary" } :
        MaterialEntry).file_id = f.file_id ∧
      ({ file_id := "d1", file_name := "notes.pdf", file_type := "pdf",
         storage_path := "users/alice/uploads/d1.pdf", upload_time := 100,
         has_summary := true, latest_summary := some "second summary" } :
        MaterialEntry).file_name = f.file_name ∧
      ({ file_id := "d1", file_name := "notes.pdf", file_type := "pdf",
         storage_path := "users/alice/uploads/d1.pdf", upload_time := 100,
         has_summary := true, latest_summary := some "second summary" } :
        MaterialEntry).file_type = f.file_type ∧
      ({ file_id := "d1", file_name := "notes.pdf", file_type := "pdf",
         storage_path := "users/alice/uploads/d1.pdf", upload_time := 100,
         has_summary := true, latest_summary := some "second summary" } :
        MaterialEntry).storage_path = f.storage_path ∧
      ({ file_id := "d1", file_name := "notes.pdf", file_type := "pdf",
         storage_path := "users/alice/uploads/d1.pdf", upload_time := 100,
         has_summary := true, latest_summary := some "second summary" } :
        MaterialEntry).upload_time = f.upload_time := by
  have h := (get_materials_spec dbSample "alice").1
  exact h _ (by decide)

theorem filter_uid_map_patch (l : List ProfileRow) (uid : String) (em : Option String) :
    (l.map (fun q => if q.firebase_uid == uid then { q with email := em } else q)).filter
      (fun q => q.firebase_uid == uid) =
    (l.filter (fun q => q.firebase_uid == uid)).map
      (fun q => if q.firebase_uid == uid then { q with email := em } else q) := by
  have hpg : ((fun q : ProfileRow => q.firebase_uid == uid) ∘
      (fun q : ProfileRow => if q.firebase_uid == uid then { q with email := em } else q)) =
      (fun q : ProfileRow => q.firebase_uid == uid) := by
    funext q
    cases hq : (q.firebase_uid == uid) with
    | false => simp [Function.comp, hq]
    | true => simp [Function.comp, hq]
  rw [List.filter_map, hpg]

theorem ensure_user_profile_idem (db : DB) (uid : String) (em : Option String) :
    ensure_user_profile (ensure_user_profile db uid em) uid em =
      ensure_user_profile db uid em := by
  rcases hfil : db.users_profile.filter (fun q => q.firebase_uid == uid) with _ | ⟨p, ps⟩
  · have h1 : ensure_user_profile db uid em =
        { db with users_profile := db.users_profile ++
            [{ firebase_uid := uid, email := em, display_name := none }] } := by
      simp only [ensure_user_profile, hfil]
    rw [h1]
    have h2 : ({ db with users_profile := db.users_profile ++
        [{ firebase_uid := uid, email := em, display_name := none }] } : DB).users_profile.filter
          (fun q => q.firebase_uid == uid) =
        [{ firebase_uid := uid, email := em, display_name := none }] := by
      simp [List.filter_append, hfil]
    simp only [ensure_user_profile, h2, Bool.and_not_self]
    simp
  · rcases hcond : (pyTruthy em && !(pyTruthy p.email)) with _ | _
    · have h1 : ensure_user_profile db uid em = db := by
        simp only [ensure_user_profile, hfil, hcond]
        simp
      rw [h1]
      exact h1
    · have hp : (p.firebase_uid == uid) = true := by
        have hmem : p ∈ db.users_profile.filter (fun q => q.firebase_uid == uid) :=
          hfil ▸ List.mem_cons_self p ps
        exact (List.mem_filter.mp hmem).2
      have hand := hcond
      rw [Bool.and_eq_true] at hand
      have h1 : ensure_user_profile db uid em =
          { db with users_profile := db.users_profile.map (fun q =>
              if q.firebase_uid == uid then { q with email := em } else q) } := by
        simp only [ensure_user_profile, hfil, hcond]
        simp
      rw [h1]
      have h2 : ({ db with users_profile := db.users_profile.map (fun q =>
          if q.firebase_uid == uid then { q with email := em } else q) } :
            DB).users_profile.filter (fun q => q.firebase_uid == uid) =
          { p with email := em } :: ps.map (fun q =>
            if q.firebase_uid == uid then { q with email := em } else q) := by
        simp only [filter_uid_map_patch, hfil, List.map_cons, hp, if_pos]
      simp only [ensure_user_profile, h2]
      simp [Bool.and_not_self]

/-- C8 counterexample: the claim allows an email modification only
when the stored email is null, but the code tests Python truthiness:
with a stored profile whose email is the non-null empty string, a call
supplying a fresh email rewrites it. -/
theorem ensure_user_profile_patches_nonnull :
    dbEmptyEmail.users_profile.map ProfileRow.email = [some ""] ∧
    (ensure_user_profile dbEmptyEmail "u" (some "user@mail")).users_profile.map
        ProfileRow.email = [some "user@mail"] := by
  exact ⟨rfl, rfl⟩

/-- C8 (amended): `ensure_user_profile` is an idempotent upsert — when
no profile exists it inserts one with null display name and the
supplied (possibly null) email; when one exists it rewrites the email
exactly when the supplied email is truthy (non-null and non-empty) and
the stored email is falsy (null or empty), and otherwise changes
nothing; running it twice with the same arguments equals running it
once; and it keeps at most one profile per identity. -/
theorem ensure_user_profile_upsert (db : DB) (uid : String) (em : Option String) :
    (db.users_profile.filter (fun q => q.firebase_uid == uid) = [] →
      (ensure_user_profile db uid em).users_profile =
        db.users_profile ++ [{ firebase_uid := uid, email := em, display_name := none }]) ∧
    (∀ p ps, db.users_profile.filter (fun q => q.firebase_uid == uid) = p :: ps →
      (pyTruthy em && !(pyTruthy p.email)) = true →
      (ensure_user_profile db uid em).users_profile =
        db.users_profile.map (fun q =>
          if q.firebase_uid == uid then { q with email := em } else q)) ∧
    (∀ p ps, db.users_profile.filter (fun q => q.firebase_uid == uid) = p :: ps →
      (pyTruthy em && !(pyTruthy p.email)) = false →
      ensure_user_profile db uid em = db) ∧
    (ensure_user_profile (ensure_user_profile db uid em) uid em =
      ensure_user_profile db uid em) ∧
    ((db.users_profile.filter (fun q => q.firebase_uid == uid)).length ≤ 1 →
      ((ensure_user_profile db uid em).users_profile.filter
          (fun q => q.firebase_uid == uid)).length ≤ 1) := by
  refine ⟨?_, ?_, ?_, ensure_user_profile_idem db uid em, ?_⟩
  · intro h
    simp only [ensure_user_profile, h]
  · intro p ps h hcond
    simp only [ensure_user_profile, h, hcond]
    simp
  · intro p ps h hcond
    simp only [ensure_user_profile, h, hcond]
    simp
  · intro hlen
    rcases hfil : db.users_profile.filter (fun q => q.firebase_uid == uid) with _ | ⟨p, ps⟩
    · have h1 : ensure_user_profile db uid em =
          { db with users_profile := db.users_profile ++
              [{ firebase_uid := uid, email := em, display_name := none }] } := by
        simp only [ensure_user_profile, hfil]
      rw [h1]
      simp [List.filter_append, hfil]
    · rcases hcond : (pyTruthy em && !(pyTruthy p.email)) with _ | _
      · have h1 : ensure_user_profile db uid em = db := by
          simp only [ensure_user_profile, hfil, hcond]
          simp
        rw [h1]
        exact hlen
      · have h1 : ensure_user_profile db uid em =
            { db with users_profile := db.users_profile.map (fun q =>
                if q.firebase_uid == uid then { q with email := em } else q) } := by
          simp only [ensure_user_profile, hfil, hcond]
          simp
        rw [h1]
        have h2 := filter_uid_map_patch db.users_profile uid em
        simp only [h2, List.length_map]
        exact hlen

/-- C8 witness: on a database with no profile for alice, the upsert
inserts exactly one fresh profile row with null display name. -/
theorem ensure_user_profile_upsert_witness :
    (ensure_user_profile dbSample "alice" (some "al@mail")).users_profile =
      dbSample.users_profile ++
        [{ firebase_uid := "alice", email := some "al@mail", display_name := none }] := by
  exact (ensure_user_profile_upsert dbSample "alice" (some "al@mail")).1 (by decide)

theorem tablesAligned_of_eq (db₁ db₂ : DB) (fr : FileRow) (dm : DocMetaRow)
    (hf : db₂.files = db₁.files ++ [fr])
    (hd : db₂.documents_metadata = db₁.documents_metadata ++ [dm])
    (hid : dm.id = fr.file_id) (huid : dm.firebase_uid = fr.firebase_uid)
    (h : tablesAligned db₁) : tablesAligned db₂ := by
  obtain ⟨h1, h2⟩ := h
  constructor
  · intro f hmem
    rw [hf] at hmem
    rcases List.mem_append.mp hmem with hold | hnew
    · rcases h1 f hold with ⟨d, hd1, hd2, hd3⟩
      exact ⟨d, by rw [hd]; exact List.mem_append_left _ hd1, hd2, hd3⟩
    · rcases List.mem_singleton.mp hnew with rfl
      exact ⟨dm, by rw [hd]; exact List.mem_append_right _ (List.mem_singleton_self dm),
        hid, huid⟩
  · intro d hmem
    rw [hd] at hmem
    rcases List.mem_append.mp hmem with hold | hnew
    · rcases h2 d hold with ⟨f, hf1, hf2, hf3⟩
      exact ⟨f, by rw [hf]; exact List.mem_append_left _ hf1, hf2, hf3⟩
    · rcases List.mem_singleton.mp hnew with rfl
      exact ⟨fr, by rw [hf]; exact List.mem_append_right _ (List.mem_singleton_self fr),
        hid.symm, huid.symm⟩

/-- C6: every successful intake — file (with a whitelisted MIME type
and both external writes succeeding), URL, or text — appends exactly
one row to the `files` table and exactly one companion row to
`documents_metadata`, both keyed by the freshly generated identifier
and carrying the caller's identity; consequently the alignment of the
two tables (same ids with matching owners on both sides) is
preserved. -/
theorem intake_inserts_paired_rows :
    (∀ (st : SysState) (now : Nat) (file : UploadedFile) (uid : String) (em : Option String)
        (fid ft : String), lookupType file.content_type = some ft →
      (upload_file st now file uid em fid (.ok ()) (.ok ())).2.db.files =
        st.db.files ++ [mkFileRow fid uid file.filename ft
          (storagePathFor uid fid (fileExt file.filename ft)) now] ∧
      (upload_file st now file uid em fid (.ok ()) (.ok ())).2.db.documents_metadata =
        st.db.documents_metadata ++ [mkDocMeta fid uid] ∧
      (tablesAligned st.db →
        tablesAligned (upload_file st now file uid em fid (.ok ()) (.ok ())).2.db)) ∧
    (∀ (st : SysState) (now : Nat) (url : String) (title : Option String) (uid : String)
        (em : Option String) (fid : String),
      (upload_url st now url title uid em fid).2.db.files =
        st.db.files ++ [mkFileRow fid uid (pyOr title (url.take 100)) "url" url now] ∧
      (upload_url st now url title uid em fid).2.db.documents_metadata =
        st.db.documents_metadata ++ [mkDocMeta fid uid] ∧
      (tablesAligned st.db → tablesAligned (upload_url st now url title uid em fid).2.db)) ∧
    (∀ (st : SysState) (now : Nat) (text : String) (title : Option String) (uid : String)
        (em : Option String) (fid : String),
      (upload_text st now text title uid em fid).2.db.files =
        st.db.files ++
          [mkFileRow fid uid (textTitle text title) "url" ("text://" ++ fid) now] ∧
      (upload_text st now text title uid em fid).2.db.documents_metadata =
        st.db.documents_metadata ++ [mkDocMeta fid uid] ∧
      (tablesAligned st.db → tablesAligned (upload_text st now text title uid em fid).2.db)) := by
  refine ⟨?_, ?_, ?_⟩
  · intro st now file uid em fid ft hlk
    have hfiles : (upload_file st now file uid em fid (.ok ()) (.ok ())).2.db.files =
        st.db.files ++ [mkFileRow fid uid file.filename ft
          (storagePathFor uid fid (fileExt file.filename ft)) now] := by
      simp [upload_file, hlk, ensure_user_profile_files, mkFileRow]
    have hdms : (upload_file st now file uid em fid (.ok ()) (.ok ())).2.db.documents_metadata =
        st.db.documents_metadata ++ [mkDocMeta fid uid] := by
      simp [upload_file, hlk, ensure_user_profile_documents_metadata, mkDocMeta]
    exact ⟨hfiles, hdms, fun hal =>
      tablesAligned_of_eq st.db _ _ _ hfiles hdms rfl rfl hal⟩
  · intro st now url title uid em fid
    have hfiles : (upload_url st now url title uid em fid).2.db.files =
        st.db.files ++ [mkFileRow fid uid (pyOr title (url.take 100)) "url" url now] := by
      simp [upload_url, ensure_user_profile_files, mkFileRow]
    have hdms : (upload_url st now url title uid em fid).2.db.documents_metadata =
        st.db.documents_metadata ++ [mkDocMeta fid uid] := by
      simp [upload_url, ensure_user_profile_documents_metadata, mkDocMeta]
    exact ⟨hfiles, hdms, fun hal =>
      tablesAligned_of_eq st.db _ _ _ hfiles hdms rfl rfl hal⟩
  · intro st now text title uid em fid
    have hfiles : (upload_text st now text title uid em fid).2.db.files =
        st.db.files ++
          [mkFileRow fid uid (textTitle text title) "url" ("text://" ++ fid) now] := by
      simp [upload_text, ensure_user_profile_files, mkFileRow]
    have hdms : (upload_text st now text title uid em fid).2.db.documents_metadata =
        st.db.documents_metadata ++ [mkDocMeta fid uid] := by
      simp [upload_text, ensure_user_profile_documents_metadata, mkDocMeta]
    exact ⟨hfiles, hdms, fun hal =>
      tablesAligned_of_eq st.db _ _ _ hfiles hdms rfl rfl hal⟩

/-- C6 witness: a concrete accepted PDF upload on the empty state
appends the paired rows and keeps the two tables aligned. -/
theorem intake_inserts_paired_rows_witness :
    (upload_file emptySys 7 { filename := "notes.pdf", content_type := "application/pdf" }
        "alice" none "d9" (.ok ()) (.ok ())).2.db.files =
      emptySys.db.files ++ [mkFileRow "d9" "alice" "notes.pdf" "pdf"
        (storagePathFor "alice" "d9" (fileExt "notes.pdf" "pdf")) 7] ∧
    (upload_file emptySys 7 { filename := "notes.pdf", content_type := "application/pdf" }
        "alice" none "d9" (.ok ()) (.ok ())).2.db.documents_metadata =
      emptySys.db.documents_metadata ++ [mkDocMeta "d9" "alice"] ∧
    (tablesAligned emptySys.db →
      tablesAligned (upload_file emptySys 7
        { filename := "notes.pdf", content_type := "application/pdf" }
        "alice" none "d9" (.ok ()) (.ok ())).2.db) := by
  exact intake_inserts_paired_rows.1 emptySys 7
    { filename := "notes.pdf", content_type := "application/pdf" } "alice" none "d9" "pdf"
    (by decide)

theorem binaryTrace_follows (r1 r2 r3 : Except String Unit) :
    followsSeq binarySeq (binaryTrace r1 r2 r3) ∧
    (∀ w ∈ binaryTrace r1 r2 r3, w.status = "error" →
      w.progress = 0 ∧ ∃ e, w.message = some e ∧
        (r1 = .error e ∨ r2 = .error e ∨ r3 = .error e)) := by
  cases r1 with
  | error e1 =>
    constructor
    · refine Or.inr ⟨3, e1, by decide, rfl, rfl, ?_⟩
      intro w hw
      simp only [binaryTrace, fileIntakeTrace, process_file_trace, List.cons_append,
        List.nil_append, List.take_succ_cons, List.take_zero, List.mem_cons,
        List.not_mem_nil, or_false] at hw
      rcases hw with rfl | rfl | rfl <;> decide
    · intro w hw hst
      simp only [binaryTrace, fileIntakeTrace, process_file_trace, List.cons_append,
        List.nil_append, List.mem_cons, List.not_mem_nil, or_false] at hw
      rcases hw with rfl | rfl | rfl | rfl
      · simp at hst
      · simp at hst
      · simp at hst
      · exact ⟨rfl, e1, rfl, Or.inl rfl⟩
  | ok u1 =>
    cases r2 with
    | error e2 =>
      constructor
      · refine Or.inr ⟨4, e2, by decide, rfl, rfl, ?_⟩
        intro w hw
        simp only [binaryTrace, fileIntakeTrace, process_file_trace, List.cons_append,
          List.nil_append, List.take_succ_cons, List.take_zero, List.mem_cons,
          List.not_mem_nil, or_false] at hw
        rcases hw with rfl | rfl | rfl | rfl <;> decide
      · intro w hw hst
        simp only [binaryTrace, fileIntakeTrace, process_file_trace, List.cons_append,
          List.nil_append, List.mem_cons, List.not_mem_nil, or_false] at hw
        rcases hw with rfl | rfl | rfl | rfl | rfl
        · simp at hst
        · simp at hst
        · simp at hst
        · simp at hst
        · exact ⟨rfl, e2, rfl, Or.inr (Or.inl rfl)⟩
    | ok u2 =>
      cases r3 with
      | error e3 =>
        constructor
        · refine Or.inr ⟨4, e3, by decide, rfl, rfl, ?_⟩
          intro w hw
          simp only [binaryTrace, fileIntakeTrace, process_file_trace, List.cons_append,
            List.nil_append, List.take_succ_cons, List.take_zero, List.mem_cons,
            List.not_mem_nil, or_false] at hw
          rcases hw with rfl | rfl | rfl | rfl <;> decide
        · intro w hw hst
          simp only [binaryTrace, fileIntakeTrace, process_file_trace, List.cons_append,
            List.nil_append, List.mem_cons, List.not_mem_nil, or_false] at hw
          rcases hw with rfl | rfl | rfl | rfl | rfl
          · simp at hst
          · simp at hst
          · simp at hst
          · simp at hst
          · exact ⟨rfl, e3, rfl, Or.inr (Or.inr rfl)⟩
      | ok u3 =>
        constructor
        · refine Or.inl ⟨rfl, ?_⟩
          intro w hw
          simp only [binaryTrace, fileIntakeTrace, process_file_trace, List.cons_append,
            List.nil_append, List.mem_cons, List.not_mem_nil, or_false] at hw
          rcases hw with rfl | rfl | rfl | rfl | rfl <;> decide
        · intro w hw hst
          simp only [binaryTrace, fileIntakeTrace, process_file_trace, List.cons_append,
            List.nil_append, List.mem_cons, List.not_mem_nil, or_false] at hw
          rcases hw with rfl | rfl | rfl | rfl | rfl <;> simp at hst

theorem urlTrace_follows (r1 r2 r3 : Except String Unit) :
    followsSeq urlSeq (urlTrace r1 r2 r3) ∧
    (∀ w ∈ urlTrace r1 r2 r3, w.status = "error" →
      w.progress = 0 ∧ ∃ e, w.message = some e ∧
        (r1 = .error e ∨ r2 = .error e ∨ r3 = .error e)) := by
  cases r1 with
  | error e1 =>
    constructor
    · refine Or.inr ⟨1, e1, by decide, rfl, rfl, ?_⟩
      intro w hw
      simp only [urlTrace, urlIntakeTrace, process_url_trace, List.cons_append,
        List.nil_append, List.take_succ_cons, List.take_zero, List.mem_cons,
        List.not_mem_nil, or_false] at hw
      rcases hw with rfl
      decide
    · intro w hw hst
      simp only [urlTrace, urlIntakeTrace, process_url_trace, List.cons_append,
        List.nil_append, List.mem_cons, List.not_mem_nil, or_false] at hw
      rcases hw with rfl | rfl
      · simp at hst
      · exact ⟨rfl, e1, rfl, Or.inl rfl⟩
  | ok u1 =>
    cases r2 with
    | error e2 =>
      constructor
      · refine Or.inr ⟨2, e2, by decide, rfl, rfl, ?_⟩
        intro w hw
        simp only [urlTrace, urlIntakeTrace, process_url_trace, List.cons_append,
          List.nil_append, List.take_succ_cons, List.take_zero, List.mem_cons,
          List.not_mem_nil, or_false] at hw
        rcases hw with rfl | rfl <;> decide
      · intro w hw hst
        simp only [urlTrace, urlIntakeTrace, process_url_trace, List.cons_append,
          List.nil_append, List.mem_cons, List.not_mem_nil, or_false] at hw
        rcases hw with rfl | rfl | rfl
        · simp at hst
        · simp at hst
        · exact ⟨rfl, e2, rfl, Or.inr (Or.inl rfl)⟩
    | ok u2 =>
      cases r3 with
      | error e3 =>
        constructor
        · refine Or.inr ⟨2, e3, by decide, rfl, rfl, ?_⟩
          intro w hw
          simp only [urlTrace, urlIntakeTrace, process_url_trace, List.cons_append,
            List.nil_append, List.take_succ_cons, List.take_zero, List.mem_cons,
            List.not_mem_nil, or_false] at hw
          rcases hw with rfl | rfl <;> decide
        · intro w hw hst
          simp only [urlTrace, urlIntakeTrace, process_url_trace, List.cons_append,
            List.nil_append, List.mem_cons, List.not_mem_nil, or_false] at hw
          rcases hw with rfl | rfl | rfl
          · simp at hst
          · simp at hst
          · exact ⟨rfl, e3, rfl, Or.inr (Or.inr rfl)⟩
      | ok u3 =>
        constructor
        · refine Or.inl ⟨rfl, ?_⟩
          intro w hw
          simp only [urlTrace, urlIntakeTrace, process_url_trace, List.cons_append,
            List.nil_append, List.mem_cons, List.not_mem_nil, or_false] at hw
          rcases hw with rfl | rfl | rfl <;> decide
        · intro w hw hst
          simp only [urlTrace, urlIntakeTrace, process_url_trace, List.cons_append,
            List.nil_append, List.mem_cons, List.not_mem_nil, or_false] at hw
          rcases hw with rfl | rfl | rfl <;> simp at hst

theorem textTrace_follows (r1 r2 : Except String Unit) :
    followsSeq textSeq (textTrace r1 r2) ∧
    (∀ w ∈ textTrace r1 r2, w.status = "error" →
      w.progress = 0 ∧ ∃ e, w.message = some e ∧
        (r1 = .error e ∨ r2 = .error e)) := by
  cases r1 with
  | error e1 =>
    constructor
    · refine Or.inr ⟨1, e1, by decide, rfl, rfl, ?_⟩
      intro w hw
      simp only [textTrace, textIntakeTrace, process_text_trace, List.cons_append,
        List.nil_append, List.take_succ_cons, List.take_zero, List.mem_cons,
        List.not_mem_nil, or_false] at hw
      rcases hw with rfl
      decide
    · intro w hw hst
      simp only [textTrace, textIntakeTrace, process_text_trace, List.cons_append,
        List.nil_append, List.mem_cons, List.not_mem_nil, or_false] at hw
      rcases hw with rfl | rfl
      · simp at hst
      · exact ⟨rfl, e1, rfl, Or.inl rfl⟩
  | ok u1 =>
    cases r2 with
    | error e2 =>
      constructor
      · refine Or.inr ⟨1, e2, by decide, rfl, rfl, ?_⟩
        intro w hw
        simp only [textTrace, textIntakeTrace, process_text_trace, List.cons_append,
          List.nil_append, List.take_succ_cons, List.take_zero, List.mem_cons,
          List.not_mem_nil, or_false] at hw
        rcases hw with rfl
        decide
      · intro w hw hst
        simp only [textTrace, textIntakeTrace, process_text_trace, List.cons_append,
          List.nil_append, List.mem_cons, List.not_mem_nil, or_false] at hw
        rcases hw with rfl | rfl
        · simp at hst
        · exact ⟨rfl, e2, rfl, Or.inr rfl⟩
    | ok u2 =>
      constructor
      · refine Or.inl ⟨rfl, ?_⟩
        intro w hw
        simp only [textTrace, textIntakeTrace, process_text_trace, List.cons_append,
          List.nil_append, List.mem_cons, List.not_mem_nil, or_false] at hw
        rcases hw with rfl | rfl <;> decide
      · intro w hw hst
        simp only [textTrace, textIntakeTrace, process_text_trace, List.cons_append,
          List.nil_append, List.mem_cons, List.not_mem_nil, or_false] at hw
        rcases hw with rfl | rfl <;> simp at hst

/-- C1: for every accepted submission the status writes follow the
kind-dependent ordered sequence — binary file
`uploading(10), uploaded(25), extracting(40), summarizing(70),
complete(100)`; URL `extracting(30), summarizing(70), complete(100)`;
text `summarizing(50), complete(100)` — and on an unrecoverable
failure at any stage the trace is an initial part of that sequence
closed by a single terminal `error(0)` write whose message is the
failure description; no write follows the error write. -/
theorem pipeline_status_sequences :
    (∀ r1 r2 r3 : Except String Unit,
      followsSeq binarySeq (binaryTrace r1 r2 r3) ∧
      (∀ w ∈ binaryTrace r1 r2 r3, w.status = "error" →
        w.progress = 0 ∧ ∃ e, w.message = some e ∧
          (r1 = .error e ∨ r2 = .error e ∨ r3 = .error e))) ∧
    (∀ r1 r2 r3 : Except String Unit,
      followsSeq urlSeq (urlTrace r1 r2 r3) ∧
      (∀ w ∈ urlTrace r1 r2 r3, w.status = "error" →
        w.progress = 0 ∧ ∃ e, w.message = some e ∧
          (r1 = .error e ∨ r2 = .error e ∨ r3 = .error e))) ∧
    (∀ r1 r2 : Except String Unit,
      followsSeq textSeq (textTrace r1 r2) ∧
      (∀ w ∈ textTrace r1 r2, w.status = "error" →
        w.progress = 0 ∧ ∃ e, w.message = some e ∧
          (r1 = .error e ∨ r2 = .error e))) :=
  ⟨binaryTrace_follows, urlTrace_follows, textTrace_follows⟩

/-- C1 witness: the binary-file pipeline whose extractor fails with
message `boom` follows the claimed sequence up to `extracting` and
ends in a terminal `error(0)` carrying that message. -/
theorem pipeline_status_sequences_witness :
    followsSeq binarySeq (binaryTrace (.error "boom") (.ok ()) (.ok ())) ∧
    (∀ w ∈ binaryTrace (.error "boom") (.ok ()) (.ok ()), w.status = "error" →
      w.progress = 0 ∧ ∃ e, w.message = some e ∧
        ((.error "boom" : Except String Unit) = .error e ∨
         (.ok () : Except String Unit) = .error e ∨
         (.ok () : Except String Unit) = .error e)) :=
  pipeline_status_sequences.1 (.error "boom") (.ok ()) (.ok ())
